import Mathlib

/-!
Verification of the streaming aggregation and anomaly-detection pipeline of a
YOLO-based "monitor area of object" GUI application.

The Python sources are shallowly embedded:
* floats become rationals (`ℚ`); a possibly-NaN float value (numpy `nan`)
  becomes `Option ℚ`, with `none` playing the role of NaN;
* Python `int(x)` (truncation toward zero) becomes `pyInt`;
* Python `range(start, stop, step)` becomes `pyRange` (with the `ValueError`
  on a zero step surfaced through `Except` in the caller);
* numpy `nanmean` becomes `nanmean : List (Option ℚ) → Option ℚ`, returning
  `none` for an all-NaN (or empty) input, and pandas
  `Series.rolling(window, min_periods=1).mean()` becomes `rollingMeanNan`
  (pandas rolling aggregations skip NaN entries and require at least
  `min_periods = 1` non-NaN observation in the trailing window);
* pandas `Series.interpolate(method="time", limit=g, limit_direction="both")`
  followed by `fillna(0)` becomes the `cleanData` function below: a NaN entry
  is interpolated (numpy `interp` over the valid points, ordered by
  timestamp) exactly when some valid entry lies within `g` positions of it on
  at least one side, and every NaN entry that survives interpolation is
  replaced by `0`;
* the Tk application object becomes the explicit record `AppState`; the
  observable side effects of the escalation path (CSV log rows, PDF report
  requests, beep-plus-window notifications) become lists on that record.
-/

namespace MonitorArea

/-- Python `int()` applied to a float: truncation toward zero.  Dividing the
numerator by the (positive) denominator with `Int.tdiv`, which rounds toward
zero, is exactly that truncation. -/
def pyInt (q : ℚ) : ℤ := Int.tdiv q.num q.den

/-- Python `range(start, stop, step)` for a nonzero `step`; it enumerates
`start, start + step, …` strictly before `stop` (strictly after `stop` for a
negative step).  The `step = 0` case (which raises `ValueError` in Python) is
handled by the caller and never reaches this function. -/
def pyRange (start stop step : ℤ) : List ℤ :=
  if 0 < step then
    (List.range ((stop - start + step - 1) / step).toNat).map (fun k => start + step * k)
  else if step < 0 then
    (List.range ((start - stop + (-step) - 1) / (-step)).toNat).map (fun k => start + step * k)
  else []

/-- numpy `nanmean`: the arithmetic mean of the non-NaN entries, NaN (`none`)
when there is no such entry. -/
def nanmean (xs : List (Option ℚ)) : Option ℚ :=
  let vs := xs.filterMap id
  if vs = [] then none else some (vs.sum / (vs.length : ℚ))

/-- numpy `mean` of a plain float list (callers guard against emptiness). -/
def npMean (xs : List ℚ) : ℚ := xs.sum / (xs.length : ℚ)

/-- The valid (non-NaN) points of a timestamp-indexed series, as
(timestamp, value) pairs in series order.  These are the interpolation
knots that pandas hands to numpy `interp` inside
`Series.interpolate(method="time")`. -/
def validPts : List ℚ → List (Option ℚ) → List (ℚ × ℚ)
  | t :: ts, some v :: as => (t, v) :: validPts ts as
  | _ :: ts, none :: as => validPts ts as
  | _, _ => []

/-- Insert a point into a list sorted by ascending timestamp. -/
def insertByTime (p : ℚ × ℚ) : List (ℚ × ℚ) → List (ℚ × ℚ)
  | [] => [p]
  | q :: rest => if p.1 ≤ q.1 then p :: q :: rest else q :: insertByTime p rest

/-- Sort interpolation knots by ascending timestamp (pandas sorts the valid
points with `argsort` before calling numpy `interp`). -/
def sortByTime (l : List (ℚ × ℚ)) : List (ℚ × ℚ) := l.foldr insertByTime []

/-- numpy `interp(x, xp, fp)` over knots already sorted by ascending
timestamp: clamped linear interpolation.  The empty-knot case never occurs in
`cleanData` (a NaN entry is only interpolated when a valid knot exists). -/
def npInterp (x : ℚ) : List (ℚ × ℚ) → ℚ
  | [] => 0
  | [p] => p.2
  | p :: q :: r =>
    if x ≤ p.1 then p.2
    else if x ≤ q.1 then p.2 + (q.2 - p.2) * (x - p.1) / (q.1 - p.1)
    else npInterp x (q :: r)

/-- Whether pandas `interpolate(limit=gapLimit, limit_direction="both")`
fills the NaN entry at position `i`: true exactly when some valid entry lies
at most `gapLimit` positions before `i` or at most `gapLimit` positions after
`i` (pandas fills a run of NaNs partially, up to `limit` entries from each
side, rather than all-or-nothing). -/
def fillableAt (areas : List (Option ℚ)) (gapLimit i : ℕ) : Bool :=
  (List.range areas.length).any (fun j =>
    (areas.getD j none).isSome &&
    ((decide (j < i) && decide (i ≤ j + gapLimit)) ||
     (decide (i < j) && decide (j ≤ i + gapLimit))))

/-- `DataProcessor.clean_data` (data_processor.py lines 5-19): on a non-empty
equal-length input, interpolate each NaN entry that is within `gapLimit`
positions of a valid entry using time-weighted linear interpolation over the
valid points, and replace every remaining NaN by `0`; degenerate inputs
(either list empty, or mismatched lengths) are returned unchanged. -/
def cleanData (areas : List (Option ℚ)) (timestamps : List ℚ)
    (gapLimit : ℕ) : List (Option ℚ) :=
  if areas.length = 0 ∨ timestamps.length = 0 ∨ areas.length ≠ timestamps.length
  then areas
  else
    let knots := sortByTime (validPts timestamps areas)
    (List.range areas.length).map (fun i =>
      match areas.getD i none with
      | some v => some v
      | none =>
        if fillableAt areas gapLimit i
        then some (npInterp (timestamps.getD i 0) knots)
        else some 0)

/-- pandas `Series(xs).rolling(window=W, min_periods=1).mean()`: at each
position, the mean of the non-NaN entries among the trailing `W` entries
(fewer at the start of the series), NaN when that trailing window contains no
non-NaN entry. -/
def rollingMeanNan (xs : List (Option ℚ)) (W : ℕ) : List (Option ℚ) :=
  (List.range xs.length).map (fun i => nanmean ((xs.take (i + 1)).drop (i + 1 - W)))

/-- The status recorded for one window evaluation of
`DataProcessor.check_area_trend_timebased`. -/
inductive Status
  | NG
  | NORMAL
  | SKIP
deriving DecidableEq

/-- One entry of the result list of `check_area_trend_timebased`
(the dictionary built at data_processor.py lines 84-91).  `curr_avg_area` and
`ratio` are `Option ℚ` because `np.nanmean` of an all-NaN current window is
NaN, which the code stores unchanged. -/
structure WindowEval where
  time_sec : ℤ
  minutes : ℤ
  prev_avg_area : ℚ
  curr_avg_area : Option ℚ
  ratio : Option ℚ
  status : Status
deriving DecidableEq

/-- `areas[(timestamps >= lo) & (timestamps < hi)]`: the area entries at the
positions whose timestamp falls in the half-open interval `[lo, hi)`. -/
def windowAreas (areas : List (Option ℚ)) (timestamps : List ℚ) (lo hi : ℚ) :
    List (Option ℚ) :=
  ((timestamps.zip areas).filter (fun p => decide (lo ≤ p.1 ∧ p.1 < hi))).map Prod.snd

/-- The loop state of `check_area_trend_timebased`: the last time an entry
with status NG was recorded (`none` models the initial `-np.inf`) together
with the accumulated result list. -/
structure TrendState where
  lastNg : Option ℤ
  results : List WindowEval
deriving DecidableEq

/-- `True` exactly when `t_now - last_ng_time > cooldown` in the Python
comparison with `last_ng_time` starting at `-np.inf` (`none`), i.e. when the
cooldown has elapsed and a fresh NG may be recorded. -/
def cooldownOver (lastNg : Option ℤ) (tNow : ℤ) (cooldown : ℚ) : Bool :=
  match lastNg with
  | none => true
  | some l => decide (cooldown < ((tNow - l : ℤ) : ℚ))

/-- The status computation of data_processor.py lines 76-80: NG when the
flatness test fired, downgraded to SKIP when the cooldown since the last NG
has not yet elapsed, NORMAL otherwise. -/
def trendStatus (flat : Bool) (lastNg : Option ℤ) (tNow : ℤ) (cooldown : ℚ) :
    Status :=
  let status0 : Status := if flat then .NG else .NORMAL
  if status0 = .NG ∧ ¬ cooldownOver lastNg tNow cooldown then .SKIP else status0

/-- The flatness test `abs(ratio - 1) < epsilon` of data_processor.py line
76, false (as in numpy) when the ratio is NaN. -/
def flatTest (ratio : Option ℚ) (epsilon : ℚ) : Bool :=
  match ratio with
  | some r => decide (|r - 1| < epsilon)
  | none => false

/-- One iteration of the `for t_now in range(...)` loop of
`check_area_trend_timebased` (data_processor.py lines 61-91). -/
def trendStep (areas : List (Option ℚ)) (timestamps : List ℚ)
    (Lsec minutes : ℤ) (epsilon cooldown : ℚ) (st : TrendState) (tNow : ℤ) :
    TrendState :=
  let tPrev : ℤ := tNow - Lsec
  let prevW := windowAreas areas timestamps ((tPrev - Lsec : ℤ) : ℚ) ((tPrev : ℤ) : ℚ)
  let currW := windowAreas areas timestamps ((tPrev : ℤ) : ℚ) ((tNow : ℤ) : ℚ)
  if prevW = [] ∨ currW = [] then st
  else
    match nanmean prevW with
    | none => st
    | some pa =>
      if 0 < pa then
        let ca := nanmean currW
        let ratio := ca.map (fun c => c / pa)
        let status := trendStatus (flatTest ratio epsilon) st.lastNg tNow cooldown
        { lastNg := if status = .NG then some tNow else st.lastNg,
          results := st.results ++
            [{ time_sec := tNow, minutes := minutes, prev_avg_area := pa,
               curr_avg_area := ca, ratio := ratio, status := status }] }
      else st

/-- `DataProcessor.check_area_trend_timebased`.  The `Except` models the
`ValueError` that Python `range` raises when the step argument is zero; every
other execution path returns the result list. -/
def checkAreaTrendTimebased (areas : List (Option ℚ)) (timestamps : List ℚ)
    (minutes : ℤ) (epsilon : ℚ) (overlap : ℚ) (cooldown : ℚ) :
    Except String (List WindowEval) :=
  if areas = [] ∨ timestamps = [] then .ok []
  else
    let Lsec : ℤ := minutes * 60
    let step : ℤ := pyInt ((Lsec : ℚ) * (1 - overlap))
    if step = 0 then .error "ValueError: range() arg 3 must not be zero"
    else
      let start : ℤ := pyInt (timestamps.headI + (Lsec : ℚ))
      let stop : ℤ := pyInt (timestamps.getLastD 0 + 1)
      .ok ((pyRange start stop step).foldl
            (trendStep areas timestamps Lsec minutes epsilon cooldown)
            ⟨none, []⟩).results

/-- The truncated evaluation step `int(minutes * 60 * (1 - overlap_ratio))`
of `check_area_trend_timebased`. -/
def trendStepSize (minutes : ℤ) (overlap : ℚ) : ℤ :=
  pyInt (((minutes * 60 : ℤ) : ℚ) * (1 - overlap))

/-- `DataProcessor.extract_ng_markers`: the `time_sec` of every result entry
whose status is NG. -/
def extractNgMarkers (results : List WindowEval) : List ℤ :=
  (results.filter (fun r => decide (r.status = Status.NG))).map WindowEval.time_sec

/-- One YOLO detection box, reduced to the fields the pipeline reads:
predicted class, confidence, and the corner coordinates used for the area. -/
structure Box where
  cls : ℤ
  conf : ℚ
  x1 : ℚ
  y1 : ℚ
  x2 : ℚ
  y2 : ℚ
deriving DecidableEq

/-- `(x2 - x1) * (y2 - y1)`, the pixel area of a box. -/
def boxArea (b : Box) : ℚ := (b.x2 - b.x1) * (b.y2 - b.y1)

/-- The qualification filter applied to every box: class 0 with confidence
strictly above the configured threshold. -/
def qualifies (confThres : ℚ) (b : Box) : Bool :=
  decide (b.cls = 0) && decide (confThres < b.conf)

/-- Total area and count of the qualifying boxes of the buffered frames, as
accumulated by the loop at video_processor.py lines 195-205 (a frame whose
box list is `none` or empty contributes nothing). -/
def qualAccum (frames : List (Option (List Box))) (confThres : ℚ) : ℚ × ℕ :=
  frames.foldl (fun acc frame =>
    match frame with
    | none => acc
    | some boxes =>
      boxes.foldl (fun a b =>
        if qualifies confThres b then (a.1 + boxArea b, a.2 + 1) else a) acc)
    (0, 0)

/-- The mutable state of `YOLOInferenceApp` restricted to the fields the
pipeline reads and writes.  Images are abstracted to identifiers (`ℕ`); the
escalation side effects are recorded in three append-only lists: `log_rows`
holds, for each CSV row appended to `ng_log.csv`, the NG marker time that
produced the row together with the hard-coded duration; `reports` holds the
NG marker time of each PDF report request; `notifications` holds the NG
marker time of each beep-plus-warning-window notification. -/
structure AppState where
  avg_areas : List (Option ℚ)
  avg_time_stamps : List ℚ
  sma_areas : List (Option ℚ)
  sma_time_stamps : List ℚ
  frame_group : List (Option (List Box))
  frame_times : List ℚ
  sma_window : ℕ
  last_detect_time : Option ℚ
  inference_start_time : ℚ
  is_inference : Bool
  is_monitoring : Bool
  current_frame : Option ℕ
  start_monitor_image : Option ℕ
  ng_3_times : Finset ℤ
  ng_5_times : Finset ℤ
  log_rows : List (ℤ × ℤ)
  reports : List ℤ
  notifications : List ℤ
deriving DecidableEq

/-- `VideoProcessor.calculate_average_area_with_sma` (video_processor.py
lines 191-233): average the qualifying boxes of the two buffered frames; on a
detection, append the averaged sample and recompute the smoothed series from
scratch; otherwise append a GAP marker when the no-detection interval
exceeds `nan_gap`.  `now` is the wall-clock `time.time()` value stored into
`last_detect_time`. -/
def calcAverageAreaWithSMA (st : AppState) (groupTime confThres nanGap now : ℚ) :
    AppState :=
  let q := qualAccum st.frame_group confThres
  if 0 < q.2 then
    let avgArea := q.1 / (q.2 : ℚ)
    let st' := { st with
      avg_areas := st.avg_areas ++ [some avgArea],
      avg_time_stamps := st.avg_time_stamps ++ [groupTime],
      last_detect_time := some now }
    { st' with
      sma_areas := rollingMeanNan st'.avg_areas st.sma_window,
      sma_time_stamps := st'.avg_time_stamps }
  else
    match st.last_detect_time with
    | some ld =>
      if nanGap < groupTime - (ld - st.inference_start_time) then
        { st with
          avg_areas := st.avg_areas ++ [none],
          avg_time_stamps := st.avg_time_stamps ++ [groupTime] }
      else st
    | none => st

/-- The frame-pair buffering step of `VideoProcessor.process_video`
(video_processor.py lines 64-65 and 95-100): buffer the boxes and timestamp
of the current frame; once two samples are buffered, aggregate them at the
mean buffered timestamp and clear the buffer. -/
def framePairStep (st : AppState) (boxes : Option (List Box))
    (timeSec confThres nanGap now : ℚ) : AppState :=
  let st' := { st with
    frame_group := st.frame_group ++ [boxes],
    frame_times := st.frame_times ++ [timeSec] }
  if st'.frame_group.length = 2 then
    let groupTime := if st'.frame_times = [] then timeSec else npMean st'.frame_times
    let st'' := calcAverageAreaWithSMA st' groupTime confThres nanGap now
    { st'' with frame_group := [], frame_times := [] }
  else st'

/-- The series handed to both trend-detector instances by
`check_and_handle_ng` (app.py line 672): the gap cleaner applied to the
stored smoothed series. -/
def ngDetectorSeries (st : AppState) : List (Option ℚ) :=
  cleanData st.sma_areas st.sma_time_stamps 3

/-- Modelled from the spec (claim C4 wording, for comparison only): the
smoother applied to the gap-cleaner output of the aggregated series,
`SMA_W(clean_data(avg_areas, avg_time_stamps))`. -/
def specDetectorSeries (st : AppState) : List (Option ℚ) :=
  rollingMeanNan (cleanData st.avg_areas st.avg_time_stamps 3) st.sma_window

/-- Modelled from the spec (claim C5 wording, for comparison only): the mean
of the per-frame total qualifying areas over only the frames that contain at
least one qualifying box. -/
def claimPairArea (frames : List (Option (List Box))) (confThres : ℚ) : ℚ :=
  let totals := frames.filterMap (fun frame =>
    match frame with
    | none => none
    | some boxes =>
      let q := qualAccum [some boxes] confThres
      if 0 < q.2 then some q.1 else none)
  npMean totals

/-- The two detector invocations of `check_and_handle_ng` (app.py lines
672-676): clean the smoothed series, run the warning detector (3 min,
epsilon 0.15, cooldown 180) and the alert detector (minutes=4, epsilon 0.05,
cooldown 210) on it, and extract the NG markers of each. -/
def ngBatch (st : AppState) : Option (List ℤ × List ℤ) :=
  let cleaned := ngDetectorSeries st
  match checkAreaTrendTimebased cleaned st.sma_time_stamps 3 (15/100) (7/10) 180,
        checkAreaTrendTimebased cleaned st.sma_time_stamps 4 (5/100) (7/10) 210 with
  | .ok results3, .ok results5 =>
    some (extractNgMarkers results3, extractNgMarkers results5)
  | _, _ => none

/-- The CSV append of app.py lines 685-696 for one new alert marker `t`: one
row (abstracted to the marker time plus the hard-coded duration
`5 * 60 = 300`) appended to `ng_log.csv`. -/
def logNg (st : AppState) (t : ℤ) : AppState :=
  { st with log_rows := st.log_rows ++ [(t, 300)] }

/-- `show_non_modal_warning` (app.py lines 705-734) for the alert marker `t`:
always one beep-plus-warning-window notification; a PDF report request only
when both the start-monitoring snapshot and the current frame exist. -/
def showNonModalWarning (st : AppState) (t : ℤ) : AppState :=
  let st' := { st with notifications := st.notifications ++ [t] }
  match st.start_monitor_image, st.current_frame with
  | some _, some _ => { st' with reports := st'.reports ++ [t] }
  | _, _ => st'

/-- The body of the `for t in new_ng_5` loop of `check_and_handle_ng`
(app.py lines 684-699): append one log row, then fire the non-modal warning
(which in turn conditionally generates the report). -/
def handleNewAlert (st : AppState) (t : ℤ) : AppState :=
  showNonModalWarning (logNg st t) t

/-- The new alert markers `new_ng_5 = set(ng_5) - self.ng_5_times` of
app.py line 680, as a list: the distinct detector markers not yet seen, in
first-occurrence order (a Python set has no specified iteration order; the
effect counts proved below are order-independent). -/
def newAlerts (ng5 : List ℤ) (seen : Finset ℤ) : List ℤ :=
  ng5.dedup.filter (fun u => decide (u ∉ seen))

/-- `YOLOInferenceApp.check_and_handle_ng` (app.py lines 670-699): run both
detectors on the cleaned smoothed series, union the warning markers into
`ng_3_times`, compute the alert markers not yet seen, union all alert markers
into `ng_5_times`, and for each genuinely new alert marker append one log
row and fire one notification (with its conditional report).  Returns `none`
if a detector invocation raises (never the case for the hard-coded
parameters). -/
def checkAndHandleNg (st : AppState) : Option AppState :=
  match ngBatch st with
  | none => none
  | some (ng3, ng5) =>
    let st₁ := { st with ng_3_times := st.ng_3_times ∪ ng3.toFinset }
    let newNg5 := newAlerts ng5 st₁.ng_5_times
    let st₂ := { st₁ with ng_5_times := st₁.ng_5_times ∪ ng5.toFinset }
    some (newNg5.foldl handleNewAlert st₂)

/-- `YOLOInferenceApp.toggle_monitoring` (app.py lines 296-314): requires an
active inference; enabling monitoring snapshots the current frame when one
exists (and leaves the previous snapshot in place when none does); disabling
monitoring clears the snapshot. -/
def toggleMonitoring (st : AppState) : AppState :=
  if st.is_inference = false then st
  else
    let st' := { st with is_monitoring := ¬ st.is_monitoring }
    if st'.is_monitoring then
      match st'.current_frame with
      | some f => { st' with start_monitor_image := some f }
      | none => st'
    else { st' with start_monitor_image := none }

/-! ### Helper lemmas about the gap cleaner -/

/-- On a non-degenerate input, `cleanData` is the per-position interpolation
map. -/
lemma cleanData_pos (areas : List (Option ℚ)) (timestamps : List ℚ) (g : ℕ)
    (h : ¬(areas.length = 0 ∨ timestamps.length = 0 ∨
           areas.length ≠ timestamps.length)) :
    cleanData areas timestamps g =
      (List.range areas.length).map (fun i =>
        match areas.getD i none with
        | some v => some v
        | none =>
          if fillableAt areas g i
          then some (npInterp (timestamps.getD i 0)
                      (sortByTime (validPts timestamps areas)))
          else some 0) := by
  rw [cleanData, if_neg h]

lemma cleanData_length (areas : List (Option ℚ)) (timestamps : List ℚ) (g : ℕ)
    (h : ¬(areas.length = 0 ∨ timestamps.length = 0 ∨
           areas.length ≠ timestamps.length)) :
    (cleanData areas timestamps g).length = areas.length := by
  rw [cleanData_pos areas timestamps g h]
  simp

/-- Every entry of a non-degenerate `cleanData` output is a concrete value:
valid entries are copied, fillable NaN entries are interpolated, and the
remaining NaN entries become `0`. -/
lemma cleanData_isSome (areas : List (Option ℚ)) (timestamps : List ℚ) (g : ℕ)
    (h : ¬(areas.length = 0 ∨ timestamps.length = 0 ∨
           areas.length ≠ timestamps.length)) :
    ∀ e ∈ cleanData areas timestamps g, e.isSome := by
  rw [cleanData_pos areas timestamps g h]
  intro e he
  simp only [List.mem_map, List.mem_range] at he
  obtain ⟨i, _, rfl⟩ := he
  cases hv : areas.getD i none with
  | some v => simp
  | none =>
    by_cases hf : fillableAt areas g i <;> simp [hf]

/-- `cleanData` does not move valid entries. -/
lemma cleanData_getElem?_of_isSome (areas : List (Option ℚ))
    (timestamps : List ℚ) (g : ℕ)
    (h : ¬(areas.length = 0 ∨ timestamps.length = 0 ∨
           areas.length ≠ timestamps.length))
    (i : ℕ) (hi : i < areas.length) (v : ℚ) (hv : areas.getD i none = some v) :
    (cleanData areas timestamps g)[i]? = some (some v) := by
  rw [cleanData_pos areas timestamps g h, List.getElem?_map,
    List.getElem?_range hi]
  rw [List.getD_eq_getElem?_getD] at hv
  simp [hv]

/-- A series without missing values passes through `cleanData` unchanged
(pandas returns the values untouched when no entry is NaN, and `fillna` is a
no-op). -/
lemma cleanData_all_some (areas : List (Option ℚ)) (timestamps : List ℚ)
    (g : ℕ)
    (h : ¬(areas.length = 0 ∨ timestamps.length = 0 ∨
           areas.length ≠ timestamps.length))
    (hall : ∀ a ∈ areas, a.isSome) :
    cleanData areas timestamps g = areas := by
  apply List.ext_getElem?
  intro i
  by_cases hi : i < areas.length
  · have hx : areas[i]? = some areas[i] := List.getElem?_eq_getElem hi
    have hxs : (areas[i]).isSome := hall _ (List.getElem_mem hi)
    obtain ⟨v, hv⟩ := Option.isSome_iff_exists.mp hxs
    have hgd : areas.getD i none = some v := by
      rw [List.getD_eq_getElem?_getD, hx, hv]
      rfl
    rw [cleanData_getElem?_of_isSome areas timestamps g h i hi v hgd, hx, hv]
  · have h1 : (cleanData areas timestamps g)[i]? = none := by
      rw [List.getElem?_eq_none_iff, cleanData_length areas timestamps g h]
      omega
    have h2 : areas[i]? = none := by rw [List.getElem?_eq_none_iff]; omega
    rw [h1, h2]

/-- C10: with an empty list or mismatched lengths, `clean_data` returns its
`areas` argument unchanged (so NaN entries pass through unfilled); under the
precondition that both lists are non-empty and of equal length, every entry
of the output is a concrete value. -/
theorem clean_data_degenerate_passthrough (areas : List (Option ℚ))
    (timestamps : List ℚ) (g : ℕ) :
    ((areas = [] ∨ timestamps = [] ∨ areas.length ≠ timestamps.length) →
      cleanData areas timestamps g = areas) ∧
    (areas ≠ [] → timestamps ≠ [] → areas.length = timestamps.length →
      ∀ e ∈ cleanData areas timestamps g, e.isSome) := by
  constructor
  · intro h
    have hg : areas.length = 0 ∨ timestamps.length = 0 ∨
        areas.length ≠ timestamps.length := by
      rcases h with h | h | h
      · exact Or.inl (by simp [h])
      · exact Or.inr (Or.inl (by simp [h]))
      · exact Or.inr (Or.inr h)
    rw [cleanData, if_pos hg]
  · intro h1 h2 h3
    exact cleanData_isSome areas timestamps g
      (by simp [h3, List.length_eq_zero, h1, h2])

/-- Witness for C10 at concrete inputs: a mismatched-length call passes its
NaN entry through unchanged, and an equal-length call produces only concrete
values. -/
theorem clean_data_degenerate_passthrough_witness :
    cleanData [some 1, none] [0] 3 = [some 1, none] ∧
    ∀ e ∈ cleanData [some 1, none] [0, 5] 3, e.isSome := by
  constructor
  · exact (clean_data_degenerate_passthrough [some 1, none] [0] 3).1
      (Or.inr (Or.inr (by decide)))
  · exact (clean_data_degenerate_passthrough [some 1, none] [0, 5] 3).2
      (by decide) (by decide) (by decide)

/-- C7: `clean_data` is idempotent on non-empty equal-length series (its
output contains no missing values, and a series without missing values is
returned unchanged), and in particular a series already free of missing
values is returned unchanged. -/
theorem clean_data_idempotent (areas : List (Option ℚ)) (timestamps : List ℚ)
    (g : ℕ) (hne : areas ≠ []) (hlen : areas.length = timestamps.length) :
    cleanData (cleanData areas timestamps g) timestamps g =
      cleanData areas timestamps g ∧
    ((∀ a ∈ areas, a.isSome) → cleanData areas timestamps g = areas) := by
  have hln : areas.length ≠ 0 := by
    simpa [List.length_eq_zero] using hne
  have hg : ¬(areas.length = 0 ∨ timestamps.length = 0 ∨
      areas.length ≠ timestamps.length) := by
    push_neg
    refine ⟨hln, ?_, hlen⟩
    omega
  constructor
  · have hlen' : (cleanData areas timestamps g).length = areas.length :=
      cleanData_length areas timestamps g hg
    have hg' : ¬((cleanData areas timestamps g).length = 0 ∨
        timestamps.length = 0 ∨
        (cleanData areas timestamps g).length ≠ timestamps.length) := by
      rw [hlen']
      exact hg
    exact cleanData_all_some _ timestamps g hg'
      (cleanData_isSome areas timestamps g hg)
  · intro hall
    exact cleanData_all_some areas timestamps g hg hall

/-- Witness for C7 at a concrete input containing a gap. -/
theorem clean_data_idempotent_witness :
    cleanData (cleanData [some 10, none, some 20] [0, 2, 4] 3) [0, 2, 4] 3 =
      cleanData [some 10, none, some 20] [0, 2, 4] 3 ∧
    ((∀ a ∈ ([some 10, some 15, some 20] : List (Option ℚ)), a.isSome) →
      cleanData [some 10, some 15, some 20] [0, 2, 4] 3 =
        [some 10, some 15, some 20]) := by
  exact ⟨(clean_data_idempotent [some 10, none, some 20] [0, 2, 4] 3
            (by decide) (by decide)).1,
         (clean_data_idempotent [some 10, some 15, some 20] [0, 2, 4] 3
            (by decide) (by decide)).2⟩

/-! ### Helper lemmas about the smoother -/

lemma take_succ_drop_self : ∀ (xs : List (Option ℚ)) (i : ℕ), i < xs.length →
    (xs.take (i + 1)).drop i = [xs.getD i none]
  | _ :: _, 0, _ => rfl
  | x :: xs, i + 1, h => by
    have hi : i < xs.length := by simpa using h
    simpa using take_succ_drop_self xs i hi

lemma nanmean_singleton (o : Option ℚ) : nanmean [o] = o := by
  cases o with
  | none => rfl
  | some v => simp [nanmean]

lemma rollingMeanNan_length (xs : List (Option ℚ)) (W : ℕ) :
    (rollingMeanNan xs W).length = xs.length := by
  simp [rollingMeanNan]

lemma rollingMeanNan_getElem? (xs : List (Option ℚ)) (W i : ℕ)
    (hi : i < xs.length) :
    (rollingMeanNan xs W)[i]? =
      some (nanmean ((xs.take (i + 1)).drop (i + 1 - W))) := by
  rw [rollingMeanNan, List.getElem?_map, List.getElem?_range hi]
  rfl

/-- A non-empty list of concrete values has a concrete `nanmean`. -/
lemma nanmean_isSome_of_all_some (xs : List (Option ℚ)) (hne : xs ≠ [])
    (hall : ∀ a ∈ xs, a.isSome) : (nanmean xs).isSome := by
  obtain ⟨x, hx⟩ := List.exists_mem_of_ne_nil xs hne
  obtain ⟨v, hv⟩ := Option.isSome_iff_exists.mp (hall x hx)
  have hmem : v ∈ xs.filterMap id := by
    rw [List.mem_filterMap]
    exact ⟨some v, hv ▸ hx, rfl⟩
  have hnef : xs.filterMap id ≠ [] := List.ne_nil_of_mem hmem
  simp [nanmean, hnef]

/-- C6: the smoother with window `W = 1` returns the series unchanged; with
`W` at least the length of the series, the last output is the arithmetic
mean of the whole series; each position with fewer than `W` points available
is the mean of all points available so far (partial windows); and the output
always has one (concrete, for a NaN-free input) value per input position. -/
theorem sma_window_properties :
    (∀ xs : List (Option ℚ), rollingMeanNan xs 1 = xs) ∧
    (∀ (ys : List ℚ) (W : ℕ), ys ≠ [] → ys.length ≤ W →
      (rollingMeanNan (ys.map some) W).getLast? =
        some (some (ys.sum / (ys.length : ℚ)))) ∧
    (∀ (xs : List (Option ℚ)) (W i : ℕ), i < xs.length → i + 1 ≤ W →
      (rollingMeanNan xs W)[i]? = some (nanmean (xs.take (i + 1)))) ∧
    (∀ (xs : List (Option ℚ)) (W : ℕ),
      (rollingMeanNan xs W).length = xs.length ∧
      (1 ≤ W → (∀ a ∈ xs, a.isSome) →
        ∀ e ∈ rollingMeanNan xs W, e.isSome)) := by
  refine ⟨?_, ?_, ?_, ?_⟩
  · intro xs
    apply List.ext_getElem?
    intro i
    by_cases hi : i < xs.length
    · rw [rollingMeanNan_getElem? xs 1 i hi, Nat.add_sub_cancel]
      rw [take_succ_drop_self xs i hi, nanmean_singleton]
      rw [List.getElem?_eq_getElem hi, List.getD_eq_getElem?_getD,
        List.getElem?_eq_getElem hi]
      rfl
    · rw [List.getElem?_eq_none_iff.mpr, List.getElem?_eq_none_iff.mpr]
      · omega
      · rw [rollingMeanNan_length]; omega
  · intro ys W hne hW
    have hlen : (ys.map some).length = ys.length := by simp
    have hlpos : 0 < ys.length := List.length_pos.mpr hne
    have hlast : (rollingMeanNan (ys.map some) W).getLast? =
        (rollingMeanNan (ys.map some) W)[ys.length - 1]? := by
      rw [List.getLast?_eq_getElem?, rollingMeanNan_length, hlen]
    rw [hlast, rollingMeanNan_getElem? _ W _ (by omega)]
    have h1 : ys.length - 1 + 1 = ys.length := by omega
    rw [h1]
    have h2 : ys.length - W = 0 := by omega
    rw [h2, List.drop_zero, List.take_of_length_le (by simp)]
    have hfm : (ys.map some).filterMap id = ys := by
      simp [List.filterMap_map]
    have hnef : (ys.map some).filterMap id ≠ [] := by rw [hfm]; exact hne
    simp [nanmean, hnef, hfm, hne]
  · intro xs W i hi hiW
    rw [rollingMeanNan_getElem? xs W i hi]
    have : i + 1 - W = 0 := by omega
    rw [this, List.drop_zero]
  · intro xs W
    refine ⟨rollingMeanNan_length xs W, ?_⟩
    intro hW hall e he
    rw [rollingMeanNan] at he
    simp only [List.mem_map, List.mem_range] at he
    obtain ⟨i, hi, rfl⟩ := he
    apply nanmean_isSome_of_all_some
    · have hlt : (xs.take (i + 1)).length = i + 1 :=
        List.length_take_of_le (by omega)
      have : ((xs.take (i + 1)).drop (i + 1 - W)).length =
          (i + 1) - (i + 1 - W) := by
        rw [List.length_drop, hlt]
      intro hcon
      rw [hcon] at this
      simp at this
      omega
    · intro a ha
      exact hall a (List.take_subset _ _ (List.drop_subset _ _ ha))

/-- Witness for C6 at concrete inputs. -/
theorem sma_window_properties_witness :
    rollingMeanNan [some 5, none, some 9] 1 = [some 5, none, some 9] ∧
    (rollingMeanNan [some 1, some 2, some 6] 5).getLast? = some (some 3) ∧
    (rollingMeanNan [some 2, some 4, some 6] 3)[1]? =
      some (nanmean [some 2, some 4]) ∧
    (rollingMeanNan [some 2, some 4, some 6] 3).length = 3 := by
  refine ⟨sma_window_properties.1 _, ?_, ?_, (sma_window_properties.2.2.2 _ 3).1⟩
  · have h := sma_window_properties.2.1 [1, 2, 6] 5 (by decide) (by decide)
    norm_num at h
    exact h
  · have h := sma_window_properties.2.2.1 [some 2, some 4, some 6] 3 1
      (by decide) (by decide)
    simpa using h

/-! ### C9: totality of the trend detector versus the zero-step ValueError -/

/-- C9: with a truncated step size of at least 1, the trend check always
returns a result list (no exception); with a truncated step size of 0 and a
non-empty evaluation range, the internal `range` call raises `ValueError`. -/
theorem check_area_trend_step_totality (areas : List (Option ℚ))
    (timestamps : List ℚ) (minutes : ℤ) (epsilon overlap cooldown : ℚ) :
    (1 ≤ trendStepSize minutes overlap →
      ∃ rs, checkAreaTrendTimebased areas timestamps minutes epsilon overlap
              cooldown = .ok rs) ∧
    (trendStepSize minutes overlap = 0 → areas ≠ [] → timestamps ≠ [] →
      pyInt (timestamps.headI + ((minutes * 60 : ℤ) : ℚ)) <
        pyInt (timestamps.getLastD 0 + 1) →
      checkAreaTrendTimebased areas timestamps minutes epsilon overlap
          cooldown = .error "ValueError: range() arg 3 must not be zero") := by
  constructor
  · intro hstep
    rw [checkAreaTrendTimebased]
    by_cases he : areas = [] ∨ timestamps = []
    · rw [if_pos he]
      exact ⟨[], rfl⟩
    · rw [if_neg he]
      have hz : pyInt (((minutes * 60 : ℤ) : ℚ) * (1 - overlap)) ≠ 0 := by
        have : trendStepSize minutes overlap ≠ 0 := by omega
        simpa [trendStepSize] using this
      rw [if_neg hz]
      exact ⟨_, rfl⟩
  · intro hstep hne1 hne2 _
    rw [checkAreaTrendTimebased]
    rw [if_neg (by simp [hne1, hne2])]
    have hz : pyInt (((minutes * 60 : ℤ) : ℚ) * (1 - overlap)) = 0 := by
      simpa [trendStepSize] using hstep
    rw [if_pos hz]

unseal Rat.add Rat.mul Rat.inv Rat.sub in
/-- Witness for C9: with the default overlap 0.7 the one-minute detector has
step 18 and returns a list; with overlap 1 the step truncates to 0 and the
`range` call raises. -/
theorem check_area_trend_step_totality_witness :
    (∃ rs, checkAreaTrendTimebased [some 1] [0] 1 (1/10) (7/10) 180 = .ok rs) ∧
    checkAreaTrendTimebased [some 1, some 1] [0, 100] 1 (1/10) 1 180 =
      .error "ValueError: range() arg 3 must not be zero" := by
  constructor
  · exact (check_area_trend_step_totality [some 1] [0] 1 (1/10) (7/10) 180).1
      (by decide)
  · exact (check_area_trend_step_totality [some 1, some 1] [0, 100] 1 (1/10)
      1 180).2 (by decide) (by decide) (by decide) (by decide)

/-! ### C3: interpolation localization machinery -/

lemma validPts_key_mem : ∀ (ts : List ℚ) (as : List (Option ℚ)),
    ∀ p ∈ validPts ts as, p.1 ∈ ts
  | [], as => by intro p hp; simp [validPts] at hp
  | t :: ts, [] => by intro p hp; simp [validPts] at hp
  | t :: ts, some v :: as => by
    intro p hp
    rcases List.mem_cons.mp hp with h | h
    · subst h; exact List.mem_cons_self _ _
    · exact List.mem_cons_of_mem _ (validPts_key_mem ts as p h)
  | t :: ts, none :: as => by
    intro p hp
    exact List.mem_cons_of_mem _ (validPts_key_mem ts as p hp)

lemma validPts_append : ∀ (ts1 : List ℚ) (as1 : List (Option ℚ))
    (ts2 : List ℚ) (as2 : List (Option ℚ)), ts1.length = as1.length →
    validPts (ts1 ++ ts2) (as1 ++ as2) = validPts ts1 as1 ++ validPts ts2 as2
  | [], [], ts2, as2, _ => rfl
  | [], _ :: _, _, _, h => by simp at h
  | _ :: _, [], _, _, h => by simp at h
  | t :: ts, some v :: as, ts2, as2, h => by
    show (t, v) :: validPts (ts ++ ts2) (as ++ as2) = _
    rw [validPts_append ts as ts2 as2 (by simpa using h)]
    rfl
  | t :: ts, none :: as, ts2, as2, h => by
    show validPts (ts ++ ts2) (as ++ as2) = _
    exact validPts_append ts as ts2 as2 (by simpa using h)

lemma validPts_all_none : ∀ (ts : List ℚ) (as : List (Option ℚ)),
    (∀ a ∈ as, a = none) → validPts ts as = []
  | [], as, _ => by cases as <;> rfl
  | t :: ts, [], _ => rfl
  | t :: ts, some v :: as, h => by
    exact absurd (h (some v) (List.mem_cons_self _ _)) (by simp)
  | t :: ts, none :: as, h => by
    simp only [validPts]
    exact validPts_all_none ts as (fun a ha => h a (List.mem_cons_of_mem _ ha))

lemma validPts_pairwise : ∀ (ts : List ℚ) (as : List (Option ℚ)),
    ts.Pairwise (· < ·) →
    (validPts ts as).Pairwise (fun p q : ℚ × ℚ => p.1 < q.1)
  | [], as, _ => by cases as <;> exact List.Pairwise.nil
  | t :: ts, [], _ => List.Pairwise.nil
  | t :: ts, some v :: as, h => by
    rw [List.pairwise_cons] at h
    refine List.Pairwise.cons ?_ (validPts_pairwise ts as h.2)
    intro q hq
    exact h.1 q.1 (validPts_key_mem ts as q hq)
  | t :: ts, none :: as, h => by
    rw [List.pairwise_cons] at h
    exact validPts_pairwise ts as h.2

lemma sortByTime_sorted_id : ∀ l : List (ℚ × ℚ),
    l.Pairwise (fun p q : ℚ × ℚ => p.1 ≤ q.1) → sortByTime l = l
  | [], _ => rfl
  | p :: l, h => by
    rw [List.pairwise_cons] at h
    show insertByTime p (sortByTime l) = p :: l
    rw [sortByTime_sorted_id l h.2]
    cases l with
    | nil => rfl
    | cons q r =>
      simp only [insertByTime]
      rw [if_pos (h.1 q (List.mem_cons_self _ _))]

lemma npInterp_segment : ∀ (A : List (ℚ × ℚ)) (t1 v1 t2 v2 x : ℚ)
    (B : List (ℚ × ℚ)), (∀ p ∈ A, p.1 ≤ t1) → t1 < x → x ≤ t2 →
    npInterp x (A ++ (t1, v1) :: (t2, v2) :: B) =
      v1 + (v2 - v1) * (x - t1) / (t2 - t1)
  | [], t1, v1, t2, v2, x, B, _, h1, h2 => by
    simp only [List.nil_append, npInterp]
    rw [if_neg (not_le.mpr h1), if_pos h2]
  | a :: A, t1, v1, t2, v2, x, B, hA, h1, h2 => by
    have ha : ¬ x ≤ a.1 :=
      not_le.mpr (lt_of_le_of_lt (hA a (List.mem_cons_self _ _)) h1)
    have hA' : ∀ p ∈ A, p.1 ≤ t1 := fun p hp => hA p (List.mem_cons_of_mem _ hp)
    have IH := npInterp_segment A t1 v1 t2 v2 x B hA' h1 h2
    cases A with
    | nil =>
      show npInterp x ((a.1, a.2) :: (t1, v1) :: (t2, v2) :: B) = _
      rw [npInterp]
      rw [if_neg ha, if_neg (not_le.mpr h1)]
      simpa using IH
    | cons b A' =>
      have hb : ¬ x ≤ b.1 :=
        not_le.mpr (lt_of_le_of_lt (hA' b (List.mem_cons_self _ _)) h1)
      show npInterp x ((a.1, a.2) :: (b.1, b.2) :: (A' ++ (t1, v1) :: (t2, v2) :: B)) = _
      rw [npInterp]
      rw [if_neg ha, if_neg hb]
      simpa using IH

/-- `cleanData` at a NaN position: interpolated when fillable, `0`
otherwise. -/
lemma cleanData_getD_of_none (areas : List (Option ℚ)) (timestamps : List ℚ)
    (g i : ℕ)
    (hg : ¬(areas.length = 0 ∨ timestamps.length = 0 ∨
            areas.length ≠ timestamps.length))
    (hi : i < areas.length) (hnone : areas.getD i none = none) :
    (cleanData areas timestamps g).getD i none =
      (if fillableAt areas g i
       then some (npInterp (timestamps.getD i 0)
                    (sortByTime (validPts timestamps areas)))
       else some 0) := by
  rw [List.getD_eq_getElem?_getD, cleanData_pos areas timestamps g hg,
    List.getElem?_map, List.getElem?_range hi]
  rw [List.getD_eq_getElem?_getD] at hnone
  simp [hnone]

/-- C3 (amended): pandas fills a long NaN run partially rather than leaving
it whole.  First part: a NaN entry of a run flanked by the valid neighbors
`(t1, v1)` and `(t2, v2)` receives the time-weighted linear interpolation
between those neighbors whenever its position is within `gapLimit` of either
neighbor (in particular a run of length at most `gapLimit` — and even up to
`2 * gapLimit` — is fully interpolated, not zeroed).  Second part: a NaN
entry farther than `gapLimit` from every valid entry on both sides resolves
to `0`. -/
theorem clean_data_gap_run_resolution :
    (∀ (P M S : List (Option ℚ)) (TP TM TS : List ℚ)
       (t1 t2 v1 v2 : ℚ) (g k : ℕ),
       (∀ a ∈ M, a = none) →
       TP.length = P.length → TM.length = M.length → TS.length = S.length →
       (TP ++ t1 :: (TM ++ t2 :: TS)).Pairwise (· < ·) →
       k < M.length →
       (k + 1 ≤ g ∨ M.length - k ≤ g) →
       (cleanData (P ++ some v1 :: (M ++ some v2 :: S))
           (TP ++ t1 :: (TM ++ t2 :: TS)) g).getD (P.length + 1 + k) none =
         some (v1 + (v2 - v1) * (TM.getD k 0 - t1) / (t2 - t1))) ∧
    (∀ (areas : List (Option ℚ)) (timestamps : List ℚ) (g i : ℕ),
       areas ≠ [] → areas.length = timestamps.length →
       i < areas.length → areas.getD i none = none →
       (∀ j, (areas.getD j none).isSome → j + g < i ∨ i + g < j) →
       (cleanData areas timestamps g).getD i none = some 0) := by
  constructor
  · intro P M S TP TM TS t1 t2 v1 v2 g k hM hPl hMl hSl hsort hk hdist
    set areas := P ++ some v1 :: (M ++ some v2 :: S) with hareas
    set ts := TP ++ t1 :: (TM ++ t2 :: TS) with hts
    have hlenA : areas.length = P.length + (M.length + S.length + 2) := by
      rw [hareas]
      simp only [List.length_append, List.length_cons]
      omega
    have hlenT : ts.length = areas.length := by
      rw [hareas, hts]
      simp only [List.length_append, List.length_cons]
      omega
    have hg : ¬(areas.length = 0 ∨ ts.length = 0 ∨ areas.length ≠ ts.length) := by
      push_neg
      refine ⟨by omega, by omega, by omega⟩
    have hi : P.length + 1 + k < areas.length := by omega
    -- the entry at the probed position is NaN
    have hnone : areas.getD (P.length + 1 + k) none = none := by
      rw [hareas, List.getD_append_right _ _ _ _ (by omega)]
      have h1 : P.length + 1 + k - P.length = k + 1 := by omega
      rw [h1, List.getD_cons_succ, List.getD_append _ _ _ _ (by omega)]
      have hmem : M.getD k none ∈ M := by
        rw [List.getD_eq_getElem M none hk]
        exact List.getElem_mem hk
      exact hM _ hmem
    -- the probed timestamp
    have hx : ts.getD (P.length + 1 + k) 0 = TM.getD k 0 := by
      rw [hts, List.getD_append_right _ _ _ _ (by omega)]
      have h1 : P.length + 1 + k - TP.length = k + 1 := by omega
      rw [h1, List.getD_cons_succ, List.getD_append _ _ _ _ (by omega)]
    have hkTM : k < TM.length := by omega
    have hxmem : TM.getD k 0 ∈ TM := by
      rw [List.getD_eq_getElem TM 0 hkTM]
      exact List.getElem_mem hkTM
    -- ordering facts
    rw [List.pairwise_append] at hsort
    obtain ⟨hTP, hrest, hcross⟩ := hsort
    rw [List.pairwise_cons] at hrest
    obtain ⟨ht1all, hrest2⟩ := hrest
    rw [List.pairwise_append] at hrest2
    obtain ⟨hTM, hrest3, hcross2⟩ := hrest2
    have ht1x : t1 < TM.getD k 0 := ht1all _ (List.mem_append_left _ hxmem)
    have hxt2 : TM.getD k 0 ≤ t2 :=
      le_of_lt (hcross2 _ hxmem t2 (List.mem_cons_self _ _))
    -- knots decomposition
    have hknots : validPts ts areas =
        validPts TP P ++ (t1, v1) :: (t2, v2) :: validPts TS S := by
      rw [hts, hareas, validPts_append TP P _ _ hPl]
      congr 1
      show (t1, v1) :: validPts (TM ++ t2 :: TS) (M ++ some v2 :: S) = _
      rw [validPts_append TM M _ _ hMl, validPts_all_none TM M hM,
        List.nil_append]
      rfl
    have hsorted : (validPts ts areas).Pairwise
        (fun p q : ℚ × ℚ => p.1 ≤ q.1) := by
      apply List.Pairwise.imp le_of_lt
      apply validPts_pairwise
      rw [hts, List.pairwise_append]
      refine ⟨hTP, ?_, hcross⟩
      rw [List.pairwise_cons]
      refine ⟨ht1all, ?_⟩
      rw [List.pairwise_append]
      exact ⟨hTM, hrest3, hcross2⟩
    -- fillable
    have hfill : fillableAt areas g (P.length + 1 + k) = true := by
      rw [fillableAt, List.any_eq_true]
      rcases hdist with hd | hd
      · refine ⟨P.length, List.mem_range.mpr (by omega), ?_⟩
        have hv : areas.getD P.length none = some v1 := by
          rw [hareas, List.getD_append_right _ _ _ _ (by omega)]
          simp
        rw [hv]
        simp only [Option.isSome_some, Bool.true_and, Bool.or_eq_true,
          Bool.and_eq_true, decide_eq_true_eq]
        omega
      · refine ⟨P.length + 1 + M.length, List.mem_range.mpr (by omega), ?_⟩
        have hv : areas.getD (P.length + 1 + M.length) none = some v2 := by
          rw [hareas, List.getD_append_right _ _ _ _ (by omega)]
          have h1 : P.length + 1 + M.length - P.length = M.length + 1 := by
            omega
          rw [h1, List.getD_cons_succ,
            List.getD_append_right _ _ _ _ (by omega)]
          simp
        rw [hv]
        simp only [Option.isSome_some, Bool.true_and, Bool.or_eq_true,
          Bool.and_eq_true, decide_eq_true_eq]
        omega
    -- assemble
    rw [cleanData_getD_of_none areas ts g (P.length + 1 + k) hg hi hnone,
      if_pos hfill, hx]
    rw [sortByTime_sorted_id _ hsorted, hknots]
    rw [npInterp_segment (validPts TP P) t1 v1 t2 v2 (TM.getD k 0)
      (validPts TS S) ?_ ht1x hxt2]
    intro p hp
    exact le_of_lt (hcross p.1 (validPts_key_mem TP P p hp) t1
      (List.mem_cons_self _ _))
  · intro areas timestamps g i hne hlen hi hnone hfar
    have hg : ¬(areas.length = 0 ∨ timestamps.length = 0 ∨
        areas.length ≠ timestamps.length) := by
      push_neg
      have : areas.length ≠ 0 := by simpa [List.length_eq_zero] using hne
      exact ⟨this, by omega, hlen⟩
    rw [cleanData_getD_of_none areas timestamps g i hg hi hnone]
    rw [if_neg ?_]
    intro hany
    rw [fillableAt, List.any_eq_true] at hany
    obtain ⟨j, _, hj⟩ := hany
    rw [Bool.and_eq_true, Bool.or_eq_true, Bool.and_eq_true, Bool.and_eq_true]
      at hj
    obtain ⟨hjs, hj2⟩ := hj
    have := hfar j hjs
    rcases hj2 with ⟨h1, h2⟩ | ⟨h1, h2⟩ <;>
      simp only [decide_eq_true_eq] at h1 h2 <;> omega

unseal Rat.add Rat.mul Rat.inv Rat.sub in
/-- Witness for C3 (amended) at concrete inputs: in
`[10, NaN, NaN, NaN, NaN, 20]` with timestamps `0..5` and `gap_limit = 3`
the NaN at position 1 is interpolated to `12`, and in a run of seven NaNs
the middle entry (farther than 3 from both valid neighbors) resolves to
`0`. -/
theorem clean_data_gap_run_resolution_witness :
    (cleanData [some 10, none, none, none, none, some 20] [0, 1, 2, 3, 4, 5]
        3).getD 1 none = some (10 + (20 - 10) * (1 - 0) / (5 - 0)) ∧
    (cleanData [some 1, none, none, none, none, none, none, none, some 2]
        [0, 1, 2, 3, 4, 5, 6, 7, 8] 3).getD 4 none = some 0 := by
  constructor
  · have h := clean_data_gap_run_resolution.1 [] [none, none, none, none] []
      [] [1, 2, 3, 4] [] 0 5 10 20 3 0 (by decide) (by decide) (by decide)
      (by decide) (by decide) (by decide) (by decide)
    simpa using h
  · apply clean_data_gap_run_resolution.2
      [some 1, none, none, none, none, none, none, none, some 2]
      [0, 1, 2, 3, 4, 5, 6, 7, 8] 3 4 (by decide) (by decide) (by decide)
      (by decide)
    intro j hj
    by_cases hjl : j < 9
    · interval_cases j <;> simp_all
    · rw [List.getD_eq_default] at hj
      · simp at hj
      · simpa using Nat.le_of_not_lt hjl

unseal Rat.add Rat.mul Rat.inv Rat.sub in
/-- Counterexample to C3 as stated: the run of four consecutive NaNs in
`[10, NaN, NaN, NaN, NaN, 20]` exceeds `gap_limit = 3`, yet `clean_data`
interpolates the whole run (position 1 becomes `12`, not `0`): a long run is
not left uninterpolated. -/
theorem clean_data_long_run_counterexample :
    cleanData [some 10, none, none, none, none, some 20] [0, 1, 2, 3, 4, 5]
        3 = [some 10, some 12, some 14, some 16, some 18, some 20] ∧
    (cleanData [some 10, none, none, none, none, some 20] [0, 1, 2, 3, 4, 5]
        3).getD 1 none ≠ some 0 := by
  constructor <;> decide

/-! ### C1: status characterization and cooldown separation -/

lemma trendStatus_eq_NG (flat : Bool) (lastNg : Option ℤ) (tNow : ℤ)
    (cooldown : ℚ) :
    trendStatus flat lastNg tNow cooldown = Status.NG ↔
      (flat = true ∧ cooldownOver lastNg tNow cooldown = true) := by
  cases flat <;> cases hco : cooldownOver lastNg tNow cooldown <;>
    simp [trendStatus, hco]

lemma trendStatus_eq_SKIP (flat : Bool) (lastNg : Option ℤ) (tNow : ℤ)
    (cooldown : ℚ) :
    trendStatus flat lastNg tNow cooldown = Status.SKIP ↔
      (flat = true ∧ cooldownOver lastNg tNow cooldown = false) := by
  cases flat <;> cases hco : cooldownOver lastNg tNow cooldown <;>
    simp [trendStatus, hco]

lemma trendStatus_eq_NORMAL (flat : Bool) (lastNg : Option ℤ) (tNow : ℤ)
    (cooldown : ℚ) :
    trendStatus flat lastNg tNow cooldown = Status.NORMAL ↔ flat = false := by
  cases flat <;> cases hco : cooldownOver lastNg tNow cooldown <;>
    simp [trendStatus, hco]

/-- The loop invariant of the cooldown mechanism: every recorded NG entry is
no later than the tracked `last_ng_time`, and recorded NG entries are
pairwise separated by more than the cooldown. -/
def ngInvariant (cooldown : ℚ) (st : TrendState) : Prop :=
  (∀ e ∈ st.results, e.status = Status.NG →
    ∃ l, st.lastNg = some l ∧ e.time_sec ≤ l) ∧
  st.results.Pairwise (fun a b => a.status = Status.NG →
    b.status = Status.NG → cooldown < ((b.time_sec - a.time_sec : ℤ) : ℚ))

lemma ngInvariant_append (cooldown : ℚ) (st : TrendState) (e : WindowEval)
    (tNow : ℤ) (hcd : 0 ≤ cooldown) (h : ngInvariant cooldown st)
    (he : e.time_sec = tNow)
    (hngco : e.status = Status.NG → cooldownOver st.lastNg tNow cooldown = true) :
    ngInvariant cooldown
      ⟨if e.status = Status.NG then some tNow else st.lastNg,
       st.results ++ [e]⟩ := by
  have key : ∀ a ∈ st.results, a.status = Status.NG →
      e.status = Status.NG → cooldown < ((tNow - a.time_sec : ℤ) : ℚ) := by
    intro a ha hang heng
    obtain ⟨l, hl, hle⟩ := h.1 a ha hang
    have hco := hngco heng
    rw [hl] at hco
    simp only [cooldownOver, decide_eq_true_eq] at hco
    have hlt : cooldown < ((tNow - l : ℤ) : ℚ) := hco
    have : ((tNow - l : ℤ) : ℚ) ≤ ((tNow - a.time_sec : ℤ) : ℚ) := by
      push_cast
      have : (a.time_sec : ℚ) ≤ (l : ℚ) := by exact_mod_cast hle
      linarith
    linarith
  constructor
  · intro a ha hang
    rcases List.mem_append.mp ha with hmem | hmem
    · obtain ⟨l, hl, hle⟩ := h.1 a hmem hang
      by_cases heng : e.status = Status.NG
      · rw [if_pos heng]
        refine ⟨tNow, rfl, ?_⟩
        have := key a hmem hang heng
        have h0 : (0 : ℚ) < ((tNow - a.time_sec : ℤ) : ℚ) := lt_of_le_of_lt hcd this
        have : (0 : ℤ) < tNow - a.time_sec := by exact_mod_cast h0
        omega
      · rw [if_neg heng]
        exact ⟨l, hl, hle⟩
    · have : a = e := by simpa using hmem
      subst this
      rw [if_pos hang]
      exact ⟨tNow, rfl, le_of_eq he⟩
  · rw [List.pairwise_append]
    refine ⟨h.2, List.pairwise_singleton _ _, ?_⟩
    intro a ha b hb
    have : b = e := by simpa using hb
    subst this
    intro hang heng
    rw [he]
    exact key a ha hang heng

lemma ngInvariant_trendStep (areas : List (Option ℚ)) (timestamps : List ℚ)
    (Lsec minutes : ℤ) (epsilon cooldown : ℚ) (st : TrendState) (tNow : ℤ)
    (hcd : 0 ≤ cooldown) (h : ngInvariant cooldown st) :
    ngInvariant cooldown
      (trendStep areas timestamps Lsec minutes epsilon cooldown st tNow) := by
  rw [trendStep]
  split
  · exact h
  · split
    · exact h
    · next pa _ =>
      split
      · exact ngInvariant_append cooldown st _ tNow hcd h rfl
          (fun hng => ((trendStatus_eq_NG _ _ _ _).mp hng).2)
      · exact h

lemma ngInvariant_foldl (areas : List (Option ℚ)) (timestamps : List ℚ)
    (Lsec minutes : ℤ) (epsilon cooldown : ℚ) (hcd : 0 ≤ cooldown) :
    ∀ (ts0 : List ℤ) (st : TrendState), ngInvariant cooldown st →
    ngInvariant cooldown
      (ts0.foldl (trendStep areas timestamps Lsec minutes epsilon cooldown) st)
  | [], st, h => h
  | t :: ts0, st, h =>
    ngInvariant_foldl areas timestamps Lsec minutes epsilon cooldown hcd ts0 _
      (ngInvariant_trendStep areas timestamps Lsec minutes epsilon cooldown
        st t hcd h)

/-- The per-evaluation behavior claimed by C1 for one loop iteration with
non-empty windows, a positive previous average `pa` and a concrete current
average `ca`: exactly one entry is appended at `t_now`; its status is NG
exactly when the ratio is within `epsilon` of 1 and the cooldown since the
last NG has elapsed (`last_ng_time` starts at negative infinity, modelled by
`none`), SKIP exactly when the ratio test fires during the cooldown, and
NORMAL exactly when the ratio test fails; and `last_ng_time` is updated to
`t_now` exactly on a true NG. -/
def trendStepSpec (areas : List (Option ℚ)) (timestamps : List ℚ)
    (minutes : ℤ) (epsilon cooldown : ℚ) (st : TrendState) (tNow : ℤ)
    (pa ca : ℚ) : Prop :=
  ∃ e : WindowEval,
    trendStep areas timestamps (minutes * 60) minutes epsilon cooldown st
        tNow =
      { lastNg := if e.status = Status.NG then some tNow else st.lastNg,
        results := st.results ++ [e] } ∧
    e.time_sec = tNow ∧
    e.prev_avg_area = pa ∧
    e.ratio = some (ca / pa) ∧
    (e.status = Status.NG ↔
      |ca / pa - 1| < epsilon ∧ cooldownOver st.lastNg tNow cooldown = true) ∧
    (e.status = Status.SKIP ↔
      |ca / pa - 1| < epsilon ∧ cooldownOver st.lastNg tNow cooldown = false) ∧
    (e.status = Status.NORMAL ↔ ¬ |ca / pa - 1| < epsilon)

/-- C1: (1) each evaluation with non-empty windows and positive previous
average records NG / SKIP / NORMAL exactly as claimed, with `last_ng_time`
starting at negative infinity and updated to `t_now` exactly on each true
NG; (2) consequently any two NG entries of a returned result list are
separated in `time_sec` by more than the cooldown. -/
theorem check_area_trend_ng_cooldown (areas : List (Option ℚ))
    (timestamps : List ℚ) (minutes : ℤ) (epsilon overlap cooldown : ℚ)
    (hcd : 0 ≤ cooldown) :
    (∀ (st : TrendState) (tNow : ℤ) (pa ca : ℚ),
      windowAreas areas timestamps
          ((tNow - minutes * 60 - minutes * 60 : ℤ) : ℚ)
          ((tNow - minutes * 60 : ℤ) : ℚ) ≠ [] →
      windowAreas areas timestamps ((tNow - minutes * 60 : ℤ) : ℚ)
          ((tNow : ℤ) : ℚ) ≠ [] →
      nanmean (windowAreas areas timestamps
          ((tNow - minutes * 60 - minutes * 60 : ℤ) : ℚ)
          ((tNow - minutes * 60 : ℤ) : ℚ)) = some pa →
      0 < pa →
      nanmean (windowAreas areas timestamps ((tNow - minutes * 60 : ℤ) : ℚ)
          ((tNow : ℤ) : ℚ)) = some ca →
      trendStepSpec areas timestamps minutes epsilon cooldown st tNow pa ca) ∧
    (∀ rs : List WindowEval,
      checkAreaTrendTimebased areas timestamps minutes epsilon overlap
          cooldown = .ok rs →
      rs.Pairwise (fun a b => a.status = Status.NG → b.status = Status.NG →
        cooldown < ((b.time_sec - a.time_sec : ℤ) : ℚ))) := by
  constructor
  · intro st tNow pa ca hprev hcurr hpa hpos hca
    rw [trendStepSpec, trendStep]
    rw [if_neg (by push_neg; exact ⟨hprev, hcurr⟩), hpa]
    simp only [if_pos hpos, hca]
    refine ⟨{ time_sec := tNow, minutes := minutes, prev_avg_area := pa,
              curr_avg_area := some ca, ratio := some (ca / pa),
              status := trendStatus (flatTest (some (ca / pa)) epsilon)
                st.lastNg tNow cooldown }, ?_, rfl, rfl, rfl, ?_, ?_, ?_⟩
    · rfl
    · rw [trendStatus_eq_NG]
      simp [flatTest]
    · rw [trendStatus_eq_SKIP]
      simp [flatTest]
    · rw [trendStatus_eq_NORMAL]
      simp [flatTest]
  · intro rs hrs
    simp only [checkAreaTrendTimebased] at hrs
    by_cases he : areas = [] ∨ timestamps = []
    · rw [if_pos he] at hrs
      cases hrs
      exact List.Pairwise.nil
    · rw [if_neg he] at hrs
      by_cases hz : pyInt (((minutes * 60 : ℤ) : ℚ) * (1 - overlap)) = 0
      · rw [if_pos hz] at hrs
        cases hrs
      · rw [if_neg hz] at hrs
        cases hrs
        exact (ngInvariant_foldl areas timestamps (minutes * 60) minutes
            epsilon cooldown hcd _ ⟨none, []⟩
            ⟨by simp, List.Pairwise.nil⟩).2

unseal Rat.add Rat.mul Rat.inv Rat.sub in
/-- Witness for C1: a concrete evaluation step (two samples, one-minute
window, ratio 2 against tolerance 1/10, hence NORMAL) and the full-run
cooldown separation on the same series. -/
theorem check_area_trend_ng_cooldown_witness :
    trendStepSpec [some 1, some 2] [0, 30] 1 (1/10) 180 ⟨none, []⟩ 80 1 2 ∧
    ∀ rs : List WindowEval,
      checkAreaTrendTimebased [some 1, some 2] [0, 30] 1 (1/10) (7/10)
          180 = .ok rs →
      rs.Pairwise (fun a b => a.status = Status.NG → b.status = Status.NG →
        (180 : ℚ) < ((b.time_sec - a.time_sec : ℤ) : ℚ)) := by
  have h := check_area_trend_ng_cooldown [some 1, some 2] [0, 30] 1 (1/10)
    (7/10) 180 (by norm_num)
  exact ⟨h.1 ⟨none, []⟩ 80 1 2 (by decide) (by decide) (by decide)
    (by norm_num) (by decide), h.2⟩

/-! ### C2 and C8: escalation side effects and their deduplication -/

/-- Number of `ng_log.csv` rows produced for the alert marker `t`. -/
def logCount (st : AppState) (t : ℤ) : ℕ :=
  st.log_rows.countP (fun r => decide (r.1 = t))

/-- Number of PDF report requests produced for the alert marker `t`. -/
def reportCount (st : AppState) (t : ℤ) : ℕ :=
  st.reports.countP (fun u => decide (u = t))

/-- Number of beep-plus-window notifications produced for the alert marker
`t`. -/
def notifyCount (st : AppState) (t : ℤ) : ℕ :=
  st.notifications.countP (fun u => decide (u = t))

/-- The effect of one `handleNewAlert` call, field by field. -/
lemma handleNewAlert_spec (s : AppState) (u : ℤ) :
    (handleNewAlert s u).log_rows = s.log_rows ++ [(u, 300)] ∧
    (handleNewAlert s u).notifications = s.notifications ++ [u] ∧
    (handleNewAlert s u).reports =
      (if s.start_monitor_image.isSome ∧ s.current_frame.isSome
       then s.reports ++ [u] else s.reports) ∧
    (handleNewAlert s u).ng_5_times = s.ng_5_times ∧
    (handleNewAlert s u).ng_3_times = s.ng_3_times ∧
    (handleNewAlert s u).sma_areas = s.sma_areas ∧
    (handleNewAlert s u).sma_time_stamps = s.sma_time_stamps ∧
    (handleNewAlert s u).start_monitor_image = s.start_monitor_image ∧
    (handleNewAlert s u).current_frame = s.current_frame := by
  rw [handleNewAlert, showNonModalWarning, logNg]
  cases h1 : s.start_monitor_image <;> cases h2 : s.current_frame <;>
    simp [h1, h2]

lemma countP_append_singleton (l : List ℤ) (u t : ℤ) :
    (l ++ [u]).countP (fun x => decide (x = t)) =
      l.countP (fun x => decide (x = t)) + (if u = t then 1 else 0) := by
  rw [List.countP_append]
  by_cases h : u = t <;> simp [h]

lemma countP_pairs_append_singleton (l : List (ℤ × ℤ)) (u t d : ℤ) :
    (l ++ [(u, d)]).countP (fun r => decide (r.1 = t)) =
      l.countP (fun r => decide (r.1 = t)) + (if u = t then 1 else 0) := by
  rw [List.countP_append]
  by_cases h : u = t <;> simp [h]

/-- Folding `handleNewAlert` over a list of new alert markers: the detector
inputs, dedup sets and snapshots are untouched, and the per-marker effect
counts grow by that marker's multiplicity in the list (reports only when
both snapshots are present at the start; with no start snapshot the report
list is unchanged). -/
lemma foldl_handleNewAlert_spec (l : List ℤ) (s : AppState) (t : ℤ) :
    (l.foldl handleNewAlert s).ng_5_times = s.ng_5_times ∧
    (l.foldl handleNewAlert s).sma_areas = s.sma_areas ∧
    (l.foldl handleNewAlert s).sma_time_stamps = s.sma_time_stamps ∧
    (l.foldl handleNewAlert s).start_monitor_image = s.start_monitor_image ∧
    (l.foldl handleNewAlert s).current_frame = s.current_frame ∧
    logCount (l.foldl handleNewAlert s) t =
      logCount s t + l.countP (fun u => decide (u = t)) ∧
    notifyCount (l.foldl handleNewAlert s) t =
      notifyCount s t + l.countP (fun u => decide (u = t)) ∧
    reportCount (l.foldl handleNewAlert s) t =
      reportCount s t +
        (if s.start_monitor_image.isSome ∧ s.current_frame.isSome
         then l.countP (fun u => decide (u = t)) else 0) ∧
    (s.start_monitor_image = none →
      (l.foldl handleNewAlert s).reports = s.reports) := by
  induction l generalizing s with
  | nil => simp
  | cons u l ih =>
    obtain ⟨hlog, hnot, hrep, hng5, hng3, hsma, hsmat, hsnap, hfr⟩ :=
      handleNewAlert_spec s u
    have h := ih (handleNewAlert s u)
    rw [List.foldl_cons]
    refine ⟨h.1.trans hng5, h.2.1.trans hsma, h.2.2.1.trans hsmat,
      h.2.2.2.1.trans hsnap, h.2.2.2.2.1.trans hfr, ?_, ?_, ?_, ?_⟩
    · have e2 : logCount (handleNewAlert s u) t =
          logCount s t + (if u = t then 1 else 0) := by
        rw [logCount, hlog, countP_pairs_append_singleton]
        rfl
      rw [h.2.2.2.2.2.1, e2, List.countP_cons]
      by_cases hu : u = t <;> simp [hu] <;> try omega
    · have e2 : notifyCount (handleNewAlert s u) t =
          notifyCount s t + (if u = t then 1 else 0) := by
        rw [notifyCount, hnot, countP_append_singleton]
        rfl
      rw [h.2.2.2.2.2.2.1, e2, List.countP_cons]
      by_cases hu : u = t <;> simp [hu] <;> try omega
    · rw [h.2.2.2.2.2.2.2.1, hsnap, hfr, List.countP_cons]
      by_cases himg : s.start_monitor_image.isSome ∧ s.current_frame.isSome
      · have e2 : reportCount (handleNewAlert s u) t =
            reportCount s t + (if u = t then 1 else 0) := by
          rw [reportCount, hrep, if_pos himg, countP_append_singleton]
          rfl
        rw [if_pos himg, if_pos himg, e2]
        by_cases hu : u = t <;> simp [hu] <;> try omega
      · have e2 : reportCount (handleNewAlert s u) t = reportCount s t := by
          rw [reportCount, hrep, if_neg himg]
          rfl
        rw [if_neg himg, if_neg himg, e2]
    · intro hs
      have hrep0 : (handleNewAlert s u).reports = s.reports := by
        rw [hrep, if_neg (by simp [hs])]
      exact (h.2.2.2.2.2.2.2.2 (hsnap.trans hs)).trans hrep0

/-- `checkAndHandleNg` unfolded on a successful detector batch. -/
lemma checkAndHandleNg_eq (st : AppState) (ng3 ng5 : List ℤ)
    (h : ngBatch st = some (ng3, ng5)) :
    checkAndHandleNg st =
      some ((newAlerts ng5 st.ng_5_times).foldl handleNewAlert
        { st with ng_3_times := st.ng_3_times ∪ ng3.toFinset,
                  ng_5_times := st.ng_5_times ∪ ng5.toFinset }) := by
  rw [checkAndHandleNg, h]

lemma mem_newAlerts (ng5 : List ℤ) (seen : Finset ℤ) (t : ℤ) :
    t ∈ newAlerts ng5 seen ↔ (t ∈ ng5 ∧ t ∉ seen) := by
  rw [newAlerts, List.mem_filter, List.mem_dedup]
  simp

lemma nodup_newAlerts (ng5 : List ℤ) (seen : Finset ℤ) :
    (newAlerts ng5 seen).Nodup :=
  (List.nodup_dedup ng5).filter _

lemma newAlerts_eq_nil (ng5 : List ℤ) (seen : Finset ℤ)
    (h : ∀ u ∈ ng5, u ∈ seen) : newAlerts ng5 seen = [] := by
  rw [newAlerts, List.filter_eq_nil]
  intro u hu
  simp only [decide_eq_true_eq, Decidable.not_not]
  exact h u (List.mem_dedup.mp hu)

/-- `ngBatch` reads only the smoothed series and its timestamps. -/
lemma ngBatch_congr (s s' : AppState) (h1 : s.sma_areas = s'.sma_areas)
    (h2 : s.sma_time_stamps = s'.sma_time_stamps) :
    ngBatch s = ngBatch s' := by
  rw [ngBatch, ngBatch, ngDetectorSeries, ngDetectorSeries, h1, h2]

lemma countP_eq_one_of_nodup_mem : ∀ (l : List ℤ), l.Nodup → ∀ t ∈ l,
    l.countP (fun u => decide (u = t)) = 1
  | [], _, t, ht => absurd ht (List.not_mem_nil t)
  | u :: l, hnd, t, ht => by
    rw [List.nodup_cons] at hnd
    rcases List.mem_cons.mp ht with h | h
    · rw [List.countP_cons]
      have hz : l.countP (fun x => decide (x = t)) = 0 := by
        rw [List.countP_eq_zero]
        intro a ha
        simp only [decide_eq_true_eq]
        intro hc
        exact hnd.1 ((hc.trans h) ▸ ha)
      rw [hz]
      simp [← h]
    · rw [List.countP_cons]
      have hne : ¬ u = t := fun hc => hnd.1 (hc ▸ h)
      rw [countP_eq_one_of_nodup_mem l hnd.2 t h]
      simp [hne]

/-- C2: for a session state whose alert detector reports the alert marker
`t` for the first time (no prior log row, report or notification for `t`,
and `t` not yet in the seen-alert set `ng_5_times`), running
`check_and_handle_ng` twice on the unchanged series produces exactly one
log row, one report request and one notification for `t`; after the first
run `t` is in `ng_5_times`, which is what suppresses the second run. -/
theorem check_and_handle_ng_dedup (st : AppState) (t : ℤ)
    (ng3 ng5 : List ℤ) (st₁ st₂ : AppState)
    (hbatch : ngBatch st = some (ng3, ng5))
    (ht : t ∈ ng5) (hnew : t ∉ st.ng_5_times)
    (himg1 : st.start_monitor_image.isSome)
    (himg2 : st.current_frame.isSome)
    (hl0 : logCount st t = 0) (hr0 : reportCount st t = 0)
    (hn0 : notifyCount st t = 0)
    (h1 : checkAndHandleNg st = some st₁)
    (h2 : checkAndHandleNg st₁ = some st₂) :
    logCount st₂ t = 1 ∧ reportCount st₂ t = 1 ∧ notifyCount st₂ t = 1 ∧
    t ∈ st₁.ng_5_times := by
  -- first call
  rw [checkAndHandleNg_eq st ng3 ng5 hbatch] at h1
  set base : AppState :=
    { st with ng_3_times := st.ng_3_times ∪ ng3.toFinset,
              ng_5_times := st.ng_5_times ∪ ng5.toFinset } with hbase
  set l₁ : List ℤ := newAlerts ng5 st.ng_5_times with hl₁
  have hst₁ : st₁ = l₁.foldl handleNewAlert base := by
    cases h1
    rfl
  have hmem : t ∈ l₁ := by
    rw [hl₁, mem_newAlerts]
    exact ⟨ht, hnew⟩
  have hnd : l₁.Nodup := nodup_newAlerts ng5 st.ng_5_times
  have hcount : l₁.countP (fun u => decide (u = t)) = 1 :=
    countP_eq_one_of_nodup_mem l₁ hnd t hmem
  have hfold₁ := foldl_handleNewAlert_spec l₁ base t
  have hng5₁ : st₁.ng_5_times = st.ng_5_times ∪ ng5.toFinset := by
    rw [hst₁, hfold₁.1]
  have htin : t ∈ st₁.ng_5_times := by
    rw [hng5₁]
    exact Finset.mem_union_right _ (List.mem_toFinset.mpr ht)
  have hl₁c : logCount st₁ t = 1 := by
    rw [hst₁, hfold₁.2.2.2.2.2.1, hcount]
    have : logCount base t = logCount st t := rfl
    omega
  have hn₁c : notifyCount st₁ t = 1 := by
    rw [hst₁, hfold₁.2.2.2.2.2.2.1, hcount]
    have : notifyCount base t = notifyCount st t := rfl
    omega
  have hr₁c : reportCount st₁ t = 1 := by
    rw [hst₁, hfold₁.2.2.2.2.2.2.2.1]
    have himg : base.start_monitor_image.isSome ∧
        base.current_frame.isSome := ⟨himg1, himg2⟩
    rw [if_pos himg, hcount]
    have : reportCount base t = reportCount st t := rfl
    omega
  -- second call: same batch, empty new-alert set
  have hbatch₁ : ngBatch st₁ = some (ng3, ng5) := by
    rw [ngBatch_congr st₁ st ?_ ?_]
    · exact hbatch
    · rw [hst₁, hfold₁.2.1]
    · rw [hst₁, hfold₁.2.2.1]
  rw [checkAndHandleNg_eq st₁ ng3 ng5 hbatch₁] at h2
  have hempty : newAlerts ng5 st₁.ng_5_times = [] := by
    apply newAlerts_eq_nil
    intro u hu
    rw [hng5₁]
    exact Finset.mem_union_right _ (List.mem_toFinset.mpr hu)
  rw [hempty] at h2
  have hst₂ : st₂ =
      { st₁ with ng_3_times := st₁.ng_3_times ∪ ng3.toFinset,
                 ng_5_times := st₁.ng_5_times ∪ ng5.toFinset } := by
    cases h2
    rfl
  refine ⟨?_, ?_, ?_, htin⟩
  · rw [hst₂]
    exact hl₁c
  · rw [hst₂]
    exact hr₁c
  · rw [hst₂]
    exact hn₁c

/-- A concrete smoothed series (constant area 100 over 312 seconds) on which
the alert detector (minutes = 4, epsilon = 0.05, cooldown = 210) reports the
NG marker 312 and the warning detector reports 234. -/
def exSeries : List (Option ℚ) :=
  [some 100, some 100, some 100, some 100, some 100, some 100, some 100,
   some 100]

/-- The timestamps of `exSeries`. -/
def exTimes : List ℚ := [0, 50, 100, 150, 200, 250, 300, 312]

/-- A fresh monitoring session holding `exSeries`, with both snapshots
present and no effects yet. -/
def exAlertState : AppState :=
  { avg_areas := [], avg_time_stamps := [], sma_areas := exSeries,
    sma_time_stamps := exTimes, frame_group := [], frame_times := [],
    sma_window := 7, last_detect_time := none, inference_start_time := 0,
    is_inference := true, is_monitoring := true, current_frame := some 1,
    start_monitor_image := some 0, ng_3_times := ∅, ng_5_times := ∅,
    log_rows := [], reports := [], notifications := [] }

/-- The state after the first `checkAndHandleNg` on `exAlertState`. -/
def exAlertState1 : AppState :=
  (checkAndHandleNg exAlertState).getD exAlertState

/-- The state after the second `checkAndHandleNg`. -/
def exAlertState2 : AppState :=
  (checkAndHandleNg exAlertState1).getD exAlertState1

unseal Rat.add Rat.mul Rat.inv Rat.sub in
/-- Witness for C2: on the concrete session `exAlertState` the alert marker
312 produces exactly one log row, one report request and one notification
across two coordinator runs. -/
theorem check_and_handle_ng_dedup_witness :
    logCount exAlertState2 312 = 1 ∧ reportCount exAlertState2 312 = 1 ∧
    notifyCount exAlertState2 312 = 1 ∧ (312 : ℤ) ∈ exAlertState1.ng_5_times :=
  check_and_handle_ng_dedup exAlertState 312 [234] [312] exAlertState1
    exAlertState2 (by decide) (by decide) (by decide) (by decide) (by decide)
    (by decide) (by decide) (by decide) (by decide) (by decide)

/-- C8: toggling monitoring on during inference with no frame yet received
leaves the start snapshot absent; a subsequent new alert marker then skips
report generation entirely (the report list is unchanged) while the marker
is still recorded in `ng_5_times` and the other escalation steps (the log
row and the notification) still run. -/
theorem monitoring_snapshot_absent (st : AppState) (t : ℤ)
    (ng3 ng5 : List ℤ) (st₁ : AppState)
    (hinf : st.is_inference = true) (hmon : st.is_monitoring = false)
    (hfr : st.current_frame = none) (hsnap : st.start_monitor_image = none) :
    ((toggleMonitoring st).is_monitoring = true ∧
     (toggleMonitoring st).start_monitor_image = none) ∧
    (ngBatch (toggleMonitoring st) = some (ng3, ng5) → t ∈ ng5 →
     t ∉ st.ng_5_times → logCount st t = 0 → notifyCount st t = 0 →
     checkAndHandleNg (toggleMonitoring st) = some st₁ →
     (st₁.reports = st.reports ∧ t ∈ st₁.ng_5_times ∧
      logCount st₁ t = 1 ∧ notifyCount st₁ t = 1)) := by
  have htm : toggleMonitoring st = { st with is_monitoring := true } := by
    simp [toggleMonitoring, hinf, hmon, hfr]
  constructor
  · rw [htm]
    exact ⟨rfl, hsnap⟩
  · intro hbatch ht hnew hl0 hn0 h1
    rw [htm] at hbatch h1
    rw [checkAndHandleNg_eq _ ng3 ng5 hbatch] at h1
    set base : AppState :=
      { st with is_monitoring := true,
                ng_3_times := st.ng_3_times ∪ ng3.toFinset,
                ng_5_times := st.ng_5_times ∪ ng5.toFinset } with hbase
    set l₁ : List ℤ := newAlerts ng5 st.ng_5_times with hl₁
    have hst₁ : st₁ = l₁.foldl handleNewAlert base := by
      cases h1
      rfl
    have hmem : t ∈ l₁ := by
      rw [hl₁, mem_newAlerts]
      exact ⟨ht, hnew⟩
    have hnd : l₁.Nodup := nodup_newAlerts ng5 st.ng_5_times
    have hcount : l₁.countP (fun u => decide (u = t)) = 1 :=
      countP_eq_one_of_nodup_mem l₁ hnd t hmem
    have hfold := foldl_handleNewAlert_spec l₁ base t
    refine ⟨?_, ?_, ?_, ?_⟩
    · rw [hst₁]
      exact hfold.2.2.2.2.2.2.2.2 hsnap
    · rw [hst₁, hfold.1]
      exact Finset.mem_union_right _ (List.mem_toFinset.mpr ht)
    · rw [hst₁, hfold.2.2.2.2.2.1, hcount]
      have : logCount base t = logCount st t := rfl
      omega
    · rw [hst₁, hfold.2.2.2.2.2.2.1, hcount]
      have : notifyCount base t = notifyCount st t := rfl
      omega

/-- A fresh monitored session holding `exSeries` but with no frame ever
received: both the current frame and the start snapshot are absent. -/
def exNoFrameState : AppState :=
  { exAlertState with is_monitoring := false, current_frame := none,
                      start_monitor_image := none }

/-- The state after `checkAndHandleNg` on the toggled `exNoFrameState`. -/
def exNoFrameState1 : AppState :=
  (checkAndHandleNg (toggleMonitoring exNoFrameState)).getD exNoFrameState

unseal Rat.add Rat.mul Rat.inv Rat.sub in
/-- Witness for C8 on the concrete no-frame session: the snapshot stays
absent, no report is generated, and the alert marker 312 is still logged,
notified, and recorded as seen. -/
theorem monitoring_snapshot_absent_witness :
    ((toggleMonitoring exNoFrameState).is_monitoring = true ∧
     (toggleMonitoring exNoFrameState).start_monitor_image = none) ∧
    (exNoFrameState1.reports = exNoFrameState.reports ∧
     (312 : ℤ) ∈ exNoFrameState1.ng_5_times ∧
     logCount exNoFrameState1 312 = 1 ∧ notifyCount exNoFrameState1 312 = 1) := by
  have h := monitoring_snapshot_absent exNoFrameState 312 [234] [312]
    exNoFrameState1 (by decide) (by decide) (by decide) (by decide)
  exact ⟨h.1, h.2 (by decide) (by decide) (by decide) (by decide) (by decide)
    (by decide)⟩

/-! ### C4: order of cleaning and smoothing on the detector input -/

/-- C4 (amended): on a detecting aggregation step while monitoring is
enabled, the series handed to both trend-detector instances is the Gap
Cleaner applied to the Smoother output of the aggregated series — the code
smooths first (video_processor.py line 217 stores the rolling mean of
`avg_areas` into `sma_areas`) and cleans afterwards (app.py line 672 cleans
`sma_areas`), not the other way around. -/
theorem detector_input_smooth_then_clean (st : AppState)
    (groupTime confThres nanGap now : ℚ)
    (hmon : st.is_monitoring = true)
    (hdet : 0 < (qualAccum st.frame_group confThres).2) :
    ngDetectorSeries (calcAverageAreaWithSMA st groupTime confThres nanGap now) =
      cleanData
        (rollingMeanNan
          (st.avg_areas ++
            [some ((qualAccum st.frame_group confThres).1 /
              ((qualAccum st.frame_group confThres).2 : ℚ))])
          st.sma_window)
        (st.avg_time_stamps ++ [groupTime]) 3 := by
  rw [ngDetectorSeries, calcAverageAreaWithSMA]
  rw [if_pos hdet]

unseal Rat.add Rat.mul Rat.inv Rat.sub in
/-- Witness for C4 (amended) at a concrete aggregation step appending the
averaged area 6 to `[2, NaN]`. -/
theorem detector_input_smooth_then_clean_witness :
    ngDetectorSeries (calcAverageAreaWithSMA
      { avg_areas := [some 2, none], avg_time_stamps := [0, 1],
        sma_areas := [], sma_time_stamps := [], frame_group :=
          [none, some [⟨0, 9/10, 0, 0, 3, 2⟩]], frame_times := [0, 2],
        sma_window := 2, last_detect_time := none,
        inference_start_time := 0, is_inference := true,
        is_monitoring := true, current_frame := some 1,
        start_monitor_image := some 0, ng_3_times := ∅, ng_5_times := ∅,
        log_rows := [], reports := [], notifications := [] } 2 (1/2) 10 5) =
      cleanData
        (rollingMeanNan [some 2, none, some 6] 2) [0, 1, 2] 3 := by
  have h := detector_input_smooth_then_clean
    { avg_areas := [some 2, none], avg_time_stamps := [0, 1],
      sma_areas := [], sma_time_stamps := [], frame_group :=
        [none, some [⟨0, 9/10, 0, 0, 3, 2⟩]], frame_times := [0, 2],
      sma_window := 2, last_detect_time := none,
      inference_start_time := 0, is_inference := true,
      is_monitoring := true, current_frame := some 1,
      start_monitor_image := some 0, ng_3_times := ∅, ng_5_times := ∅,
      log_rows := [], reports := [], notifications := [] } 2 (1/2) 10 5
    (by decide) (by decide)
  rw [h]
  decide

/-- An aggregation-step state for the C4 counterexample: aggregated series
`[2, NaN]` about to receive the averaged area 6, smoothing window 2. -/
def exOrderState : AppState :=
  { avg_areas := [some 2, none], avg_time_stamps := [0, 1],
    sma_areas := [], sma_time_stamps := [],
    frame_group := [none, some [⟨0, 9/10, 0, 0, 3, 2⟩]],
    frame_times := [0, 2], sma_window := 2, last_detect_time := none,
    inference_start_time := 0, is_inference := true, is_monitoring := true,
    current_frame := some 1, start_monitor_image := some 0,
    ng_3_times := ∅, ng_5_times := ∅, log_rows := [], reports := [],
    notifications := [] }

/-- The state after the aggregation step on `exOrderState`. -/
def exOrderState1 : AppState := calcAverageAreaWithSMA exOrderState 2 (1/2) 10 5

unseal Rat.add Rat.mul Rat.inv Rat.sub in
/-- Counterexample to C4 as stated: after the aggregation step on the
series `[2, NaN, 6]` with window 2, the detectors receive
`clean(SMA(avg_areas)) = [2, 2, 6]`, while the claimed composition
`SMA(clean(avg_areas))` is `[2, 3, 5]` — the code smooths first and cleans
afterwards, so the claimed equality fails. -/
theorem detector_input_order_counterexample :
    ngDetectorSeries exOrderState1 = [some 2, some 2, some 6] ∧
    specDetectorSeries exOrderState1 = [some 2, some 3, some 5] ∧
    ngDetectorSeries exOrderState1 ≠ specDetectorSeries exOrderState1 := by
  refine ⟨by decide, by decide, by decide⟩

/-! ### C5: the frame-pair aggregation step -/

/-- C5 (amended): on the second buffered sample with at least one qualifying
box among the two frames, exactly one aggregated sample is appended whose
area is the total qualifying-box area divided by the number of qualifying
boxes (the mean over boxes, not over detecting frames) and whose timestamp
is the mean of the two buffered timestamps; the frame buffer is cleared
after every second sample regardless of the outcome. -/
theorem frame_pair_aggregation (st : AppState) (boxes : Option (List Box))
    (timeSec confThres nanGap now : ℚ)
    (hbuf : st.frame_group.length = 1) :
    ((0 < (qualAccum (st.frame_group ++ [boxes]) confThres).2 →
      (framePairStep st boxes timeSec confThres nanGap now).avg_areas =
        st.avg_areas ++
          [some ((qualAccum (st.frame_group ++ [boxes]) confThres).1 /
            ((qualAccum (st.frame_group ++ [boxes]) confThres).2 : ℚ))] ∧
      (framePairStep st boxes timeSec confThres nanGap now).avg_time_stamps =
        st.avg_time_stamps ++ [npMean (st.frame_times ++ [timeSec])]) ∧
     (framePairStep st boxes timeSec confThres nanGap now).frame_group = [] ∧
     (framePairStep st boxes timeSec confThres nanGap now).frame_times = []) := by
  have hcond : (st.frame_group ++ [boxes]).length = 2 := by
    rw [List.length_append, hbuf]
    rfl
  have hstep : framePairStep st boxes timeSec confThres nanGap now =
      { calcAverageAreaWithSMA
          { st with frame_group := st.frame_group ++ [boxes],
                    frame_times := st.frame_times ++ [timeSec] }
          (npMean (st.frame_times ++ [timeSec])) confThres nanGap now
        with frame_group := [], frame_times := [] } := by
    rw [framePairStep]
    dsimp only
    rw [if_pos hcond, if_neg (by simp)]
  refine ⟨?_, ?_, ?_⟩
  · intro hdet
    rw [hstep]
    show ((calcAverageAreaWithSMA _ _ _ _ _).avg_areas = _ ∧
          (calcAverageAreaWithSMA _ _ _ _ _).avg_time_stamps = _)
    rw [calcAverageAreaWithSMA]
    dsimp only
    rw [if_pos hdet]
    exact ⟨rfl, rfl⟩
  · rw [hstep]
  · rw [hstep]

/-- A one-frame buffer holding two qualifying boxes (areas 2 and 4), about
to receive a frame with one qualifying box of area 12. -/
def exPairState : AppState :=
  { avg_areas := [], avg_time_stamps := [], sma_areas := [],
    sma_time_stamps := [],
    frame_group := [some [⟨0, 9/10, 0, 0, 1, 2⟩, ⟨0, 9/10, 0, 0, 2, 2⟩]],
    frame_times := [0], sma_window := 7, last_detect_time := none,
    inference_start_time := 0, is_inference := true, is_monitoring := false,
    current_frame := some 1, start_monitor_image := some 0,
    ng_3_times := ∅, ng_5_times := ∅, log_rows := [], reports := [],
    notifications := [] }

unseal Rat.add Rat.mul Rat.inv Rat.sub in
/-- Counterexample to C5 as stated: frame 1 holds boxes of areas 2 and 4
(frame total 6), frame 2 holds one box of area 12.  The appended aggregated
area is the mean over the three qualifying boxes, `(2+4+12)/3 = 6`, not the
claimed mean of the per-frame totals over the detecting frames,
`(6+12)/2 = 9`. -/
theorem frame_pair_mean_counterexample :
    (framePairStep exPairState (some [⟨0, 9/10, 0, 0, 4, 3⟩]) 2 (1/2) 10
        5).avg_areas = [some 6] ∧
    claimPairArea [some [⟨0, 9/10, 0, 0, 1, 2⟩, ⟨0, 9/10, 0, 0, 2, 2⟩],
        some [⟨0, 9/10, 0, 0, 4, 3⟩]] (1/2) = 9 ∧
    (framePairStep exPairState (some [⟨0, 9/10, 0, 0, 4, 3⟩]) 2 (1/2) 10
        5).avg_areas ≠
      [some (claimPairArea
        [some [⟨0, 9/10, 0, 0, 1, 2⟩, ⟨0, 9/10, 0, 0, 2, 2⟩],
         some [⟨0, 9/10, 0, 0, 4, 3⟩]] (1/2))] := by
  refine ⟨by decide, by decide, by decide⟩

unseal Rat.add Rat.mul Rat.inv Rat.sub in
/-- Witness for C5 (amended) on the same concrete buffer: the appended
sample is `(2+4+12)/3 = 6` at the mean timestamp `1`, and the buffer is
cleared. -/
theorem frame_pair_aggregation_witness :
    ((0 < (qualAccum (exPairState.frame_group ++
            [some [⟨0, 9/10, 0, 0, 4, 3⟩]]) (1/2)).2 →
      (framePairStep exPairState (some [⟨0, 9/10, 0, 0, 4, 3⟩]) 2 (1/2) 10
          5).avg_areas =
        exPairState.avg_areas ++
          [some ((qualAccum (exPairState.frame_group ++
              [some [⟨0, 9/10, 0, 0, 4, 3⟩]]) (1/2)).1 /
            ((qualAccum (exPairState.frame_group ++
              [some [⟨0, 9/10, 0, 0, 4, 3⟩]]) (1/2)).2 : ℚ))] ∧
      (framePairStep exPairState (some [⟨0, 9/10, 0, 0, 4, 3⟩]) 2 (1/2) 10
          5).avg_time_stamps =
        exPairState.avg_time_stamps ++
          [npMean (exPairState.frame_times ++ [2])]) ∧
     (framePairStep exPairState (some [⟨0, 9/10, 0, 0, 4, 3⟩]) 2 (1/2) 10
        5).frame_group = [] ∧
     (framePairStep exPairState (some [⟨0, 9/10, 0, 0, 4, 3⟩]) 2 (1/2) 10
        5).frame_times = []) :=
  frame_pair_aggregation exPairState (some [⟨0, 9/10, 0, 0, 4, 3⟩]) 2 (1/2)
    10 5 (by decide)

end MonitorArea
